import Mathlib

/-!
Verification of the argument schema and assembly engine of the klask
repository (src/arg_state.rs, src/lib.rs, src/error.rs), as a shallow
embedding in Lean 4.

Conventions of the embedding:
- Rust `String` becomes Lean `String`; `Vec<T>` becomes `List T`;
  `Option<T>` becomes `Option T`; `Result<T, E>` becomes `Except E T`.
- `Uuid` values are stable synthetic identities that are never serialized
  into the argument vector (see src/arg_state.rs, the `(String, Uuid)`
  pairs); they are modelled as `Nat`.
- Character classification (`char::is_alphanumeric` and friends) is
  modelled by the corresponding ASCII predicates; all theorems below
  quantify only over inputs on which the ASCII predicates agree with the
  Unicode ones used by Rust.
- Code of the repository that lives in files absent from src/
  (app_state.rs, child_app.rs, settings.rs, output.rs) is modelled from
  the specification; every such definition carries a doc comment starting
  with "Modelled from the spec:".
-/

namespace Klask

/-- Modelled from the spec: settings.rs is not under src/. Only the two
localization fields that arg_state.rs and lib.rs actually read are kept:
the prefix/suffix pair wrapped around a missing required argument's name,
and the fixed message for an empty environment-variable key. -/
structure Localization where
  error_is_required : String × String
  error_env_var_cant_be_empty : String
  deriving Repr, DecidableEq

/-- clap's `ValueHint`, stored in `ArgKind::String`/`MultipleStrings`
(src/arg_state.rs). It is only consumed by the excluded presentation
layer, never by the assembler. -/
inductive ValueHint where
  | unknown
  | anyPath
  | filePath
  | dirPath
  | executablePath
  | other
  deriving Repr, DecidableEq

/-- `ArgKind` from src/arg_state.rs: the closed tagged variant over the
four cardinalities. The `Uuid` component of a value pair is modelled as a
`Nat`. `Occurences` holds a `u8` in the source; it is modelled as a `Nat`
and the u8 arithmetic performed on it is modelled explicitly where it
matters (see `decrement_occurences`). -/
inductive ArgKind where
  | string (value : String × Nat) (default : Option String)
      (possible : List String) (value_hint : ValueHint)
  | multipleStrings (values : List (String × Nat)) (default : List String)
      (possible : List String) (value_hint : ValueHint)
  | occurences (count : Nat)
  | bool (b : Bool)
  deriving Repr, DecidableEq

/-- `ArgState` from src/arg_state.rs. The `localization` field is a
shared reference in the source; here the needed fields are stored by
value. -/
structure ArgState where
  name : String
  call_name : Option String
  desc : Option String
  optional : Bool
  use_equals : Bool
  forbid_empty : Bool
  kind : ArgKind
  validation_error : Option String
  localization : Localization
  deriving Repr, DecidableEq

/-- `ArgState::get_cmd_args` from src/arg_state.rs (lines 162-225):
appends this argument's tokens to `args`, or fails with a `String` error
(`Result<Vec<String>, String>` in the source). The `Occurences` loop
`for _ in 0..i { args.push(call_name.ok_or("Internal error.")?) }` is
rendered by its two outcomes: with a token it pushes `i` copies, without
a token it errors as soon as the first iteration runs (i.e. iff `i > 0`).
-/
def ArgState.get_cmd_args (s : ArgState) (args : List String) :
    Except String (List String) :=
  match s.kind with
  | .string (value, _) _ _ _ =>
    if !value.isEmpty then
      match s.call_name with
      | some call_name =>
        if s.use_equals then
          .ok (args ++ [call_name ++ "=" ++ value])
        else
          .ok (args ++ [call_name, value])
      | none => .ok (args ++ [value])
    else if !s.optional then
      .error (s.localization.error_is_required.1 ++ s.name ++
        s.localization.error_is_required.2)
    else
      .ok args
  | .multipleStrings values _ _ _ =>
    if !values.isEmpty then
      match s.call_name with
      | some call_name =>
        if s.use_equals then
          .ok (values.foldl (fun a v => a ++ [call_name ++ "=" ++ v.1]) args)
        else
          .ok (values.foldl (fun a v => a ++ [call_name, v.1]) args)
      | none => .ok (values.foldl (fun a v => a ++ [v.1]) args)
    else
      .ok args
  | .occurences i =>
    match s.call_name with
    | some call_name => .ok (args ++ List.replicate i call_name)
    | none => if i = 0 then .ok args else .error "Internal error."
  | .bool b =>
    if b then
      match s.call_name with
      | some call_name => .ok (args ++ [call_name])
      | none => .error "Internal error."
    else
      .ok args

/-- The single-value serialization rule as the specification words it:
with a token, `token=value` under `use_equals` and `token value`
otherwise; without a token, the bare value. Used to state the claims
about `ArgState.get_cmd_args`. -/
def tokenRule (call_name : Option String) (use_equals : Bool)
    (value : String) : List String :=
  match call_name with
  | some t => if use_equals then [t ++ "=" ++ value] else [t, value]
  | none => [value]

/-- `ArgState::update_validation_error` from src/arg_state.rs (lines
92-94): `self.validation_error = (self.name == name).then(|| message)`,
an unconditional assignment that stores the message on a name match and
`None` otherwise. -/
def ArgState.update_validation_error (s : ArgState) (name message : String) :
    ArgState :=
  { s with validation_error :=
      if s.name = name then some message else none }

/-- `ExecutionError` from src/error.rs. Payloads that are opaque foreign
values in the source (`std::io::Error`, `clap::Error`) are modelled as
their rendered messages. -/
inductive ExecutionError where
  | ioError (msg : String)
  | noValidationName
  | matchError (msg : String)
  | noStdoutOrStderr
  | validationError (name message : String)
  | guiError (msg : String)
  deriving Repr, DecidableEq

/-- Modelled from the spec: child_app.rs is not under src/. The stdin
source of an execution request: inline text or a file path (§3,
"Execution Request"). -/
inductive StdinType where
  | text (s : String)
  | file (path : String)
  deriving Repr, DecidableEq

/-- Modelled from the spec: child_app.rs is not under src/. The status of
a child-process handle (§3, "Child Process Handle"). -/
inductive ChildStatus where
  | notStarted
  | running
  | exited (code : Int)
  | killed
  | spawnFailed (err : String)
  deriving Repr, DecidableEq

/-- Modelled from the spec: child_app.rs is not under src/. A
child-process handle: its lifecycle status and the append-only output
buffer (§3, "Child Process Handle"). -/
structure ChildApp where
  status : ChildStatus
  output_buffer : String
  deriving Repr, DecidableEq

/-- Modelled from the spec: child_app.rs is not under src/. `kill()`
per §4.4: a running handle transitions to `Killed`; on an already-exited
or already-killed handle it is a no-op. -/
def ChildApp.kill (c : ChildApp) : ChildApp :=
  match c.status with
  | .running => { c with status := .killed }
  | _ => c

/-- Modelled from the spec: app_state.rs is not under src/. A command
state node: its argument states in declaration order, whether a
sub-command is required, and the currently selected sub-command branch
(chosen id plus child node), if any (§3, "Command State Node"). -/
inductive AppState where
  | node (args : List ArgState) (sub_required : Bool)
      (sub : Option (String × AppState))

/-- Modelled from the spec: app_state.rs is not under src/. The argument
vector assembler over a command state node (§4.3): fold
`ArgState::get_cmd_args` over the node's own arguments in declaration
order, then, if a sub-command is chosen, emit its name and recurse; a
required but unchosen sub-command is a failure. The caller in lib.rs
invokes this as `self.state.get_cmd_args(vec![])`. -/
def AppState.get_cmd_args : AppState → List String → Except String (List String)
  | .node args subRequired sub, acc =>
    match args.foldlM (fun a s => s.get_cmd_args a) acc with
    | .error e => .error e
    | .ok acc =>
      match sub with
      | some (name, child) => child.get_cmd_args (acc ++ [name])
      | none =>
        if subRequired then .error "Missing subcommand." else .ok acc

/-- `Klask::try_start_execution` from src/lib.rs (lines 396-422). The two
external collaborators are passed as functions: `matchCheck` stands for
clap's `self.app.try_get_matches_from_mut(args.iter())` re-validation,
and `run` stands for `ChildApp::run` (the process spawn, child_app.rs
being outside src/). String errors from assembly are lifted into
`ExecutionError` through `From<String>`, i.e. `guiError`, exactly as `?`
does in the source; the empty-env-key rejection uses the fixed
localizable message and fires before `run` is ever consulted. -/
def try_start_execution (state : AppState)
    (matchCheck : List String → Except ExecutionError Unit)
    (env : Option (String × List (String × String)))
    (stdin : Option (String × StdinType))
    (working_dir : Option (String × String))
    (localization : Localization)
    (run : List String → Option (List (String × String)) →
      Option StdinType → Option String → Except ExecutionError ChildApp) :
    Except ExecutionError ChildApp :=
  match state.get_cmd_args [] with
  | .error e => .error (.guiError e)
  | .ok args =>
    match matchCheck args with
    | .error e => .error e
    | .ok _ =>
      if (env.bind (fun p => p.2.find? (fun kv => kv.1.isEmpty))).isSome then
        .error (.guiError localization.error_env_var_cant_be_empty)
      else
        run args (env.map (fun p => p.2)) (stdin.map (fun p => p.2))
          (working_dir.map (fun p => p.2))

/-- The space character, spelled via its code point. -/
def spaceChar : Char := Char.ofNat 32

/-- `append_on_new_word` from src/lib.rs (lines 547-557): push a space
unless this is the first word, then push the character uppercased for the
first word and lowercased otherwise. The accumulating `String` is
modelled as a `List Char`. -/
def append_on_new_word (result : List Char) (first_word : Bool)
    (character : Char) : List Char :=
  let result := if !first_word then result ++ [spaceChar] else result
  if first_word then result ++ [character.toUpper]
  else result ++ [character.toLower]

/-- The loop body of `to_sentence_case` from src/lib.rs (lines 564-596),
one constructor argument per mutable local of the source
(`new_word`, `first_word`, `last_char`, `found_real_char`, `result`). -/
def sentenceLoop : List Char → Bool → Bool → Char → Bool → List Char →
    List Char
  | [], _, _, _, _, result => result
  | c :: cs, new_word, first_word, last_char, found_real_char, result =>
    if !c.isAlphanum && found_real_char then
      sentenceLoop cs true first_word last_char found_real_char result
    else if !found_real_char && !c.isAlphanum then
      sentenceLoop cs new_word first_word last_char found_real_char result
    else if c.isDigit then
      sentenceLoop cs true first_word last_char true (result ++ [c])
    else if new_word ||
        (last_char.isLower && c.isUpper && last_char != spaceChar) then
      sentenceLoop cs false false last_char true
        (append_on_new_word result first_word c)
    else
      sentenceLoop cs new_word first_word c true (result ++ [c.toLower])

/-- `convertable_string.trim_end_matches(is_not_alphanumeric)`: drop the
trailing non-alphanumeric characters. -/
def trimEndNonAlphanum (cs : List Char) : List Char :=
  (cs.reverse.dropWhile (fun c => !c.isAlphanum)).reverse

/-- `to_sentence_case` from src/lib.rs (lines 564-597), the vendored
Inflector sentence-case transform applied to argument ids by
`ArgState::new`. -/
def to_sentence_case (s : String) : String :=
  String.mk (sentenceLoop (trimEndNonAlphanum s.data) true true spaceChar
    false [])

/-- The display-name transform exactly as the claim words it: split the
id at non-alphanumeric boundaries and at lowercase-to-uppercase
boundaries (accumulator `cur` is the word being built). -/
def claimWords : List Char → List Char → List (List Char)
  | [], cur => if cur = [] then [] else [cur]
  | c :: cs, cur =>
    if !c.isAlphanum then
      (if cur = [] then [] else [cur]) ++ claimWords cs []
    else if (match cur.getLast? with
             | some l => l.isLower
             | none => false) && c.isUpper then
      cur :: claimWords cs [c]
    else
      claimWords cs (cur ++ [c])

/-- Sentence-casing as the claim words it: capitalize only the first
letter of the joined result and lowercase every other letter. -/
def capitalizeSentence : List Char → List Char
  | [] => []
  | c :: rest => c.toUpper :: rest.map Char.toLower

/-- The whole display-name transform exactly as the claim words it:
word-boundary segmentation, words joined with single spaces, then
sentence-casing. Compared against `to_sentence_case`, the function the
source uses. -/
def sentenceCaseClaim (s : String) : String :=
  String.mk (capitalizeSentence
    (List.intercalate [spaceChar] (claimWords s.data [])))

/-- Joining words with a single separator character; `joinSep sep ws` is
`List.intercalate [sep] ws` in a shape convenient for induction. -/
def joinSep (sep : Char) : List (List Char) → List Char
  | [] => []
  | w :: ws => w ++ ws.flatMap (fun v => sep :: v)

/-- clap's `ArgAction`, the cases `ArgState::new` distinguishes plus a
catch-all for the remaining actions (its `_` arm). -/
inductive ArgAction where
  | set
  | append
  | setTrue
  | setFalse
  | count
  | helpOrOther
  deriving Repr, DecidableEq

/-- clap's `Arg`, restricted to the accessors `ArgState::new` reads
(src/arg_state.rs lines 40-90): id, long/short spellings, help texts,
required and require-equals settings, the action, default values,
possible values and the value hint. -/
structure Arg where
  id : String
  long : Option String
  short : Option Char
  help : Option String
  long_help : Option String
  required : Bool
  require_equals : Bool
  action : ArgAction
  default_values : List String
  possible_values : List String
  value_hint : ValueHint
  deriving Repr, DecidableEq

/-- The synthetic identity paired with each string value;
`Uuid::new_v4()` in the source draws a random UI-only key that is never
serialized, so its value is immaterial and is modelled as 0. -/
def freshUuid : Nat := 0

/-- `ArgState::new` from src/arg_state.rs (lines 40-90). `default` is
the (already stringified) default-value list, `possible` the possible
values of the value parser; the kind is selected by the arg's action, the
display name is the sentence-cased id, the call name prefers the long
spelling `--long` over the short `-s`, the description prefers the long
help, and `forbid_empty` is hardwired to false (source TODO). -/
def ArgState.new (arg : Arg) (localization : Localization) : ArgState :=
  let default := arg.default_values
  let possible := arg.possible_values
  let kind : ArgKind :=
    match arg.action with
    | .set => .string ("", freshUuid) default.head? possible arg.value_hint
    | .append => .multipleStrings [] default possible arg.value_hint
    | .setTrue => .bool false
    | .setFalse => .bool true
    | .count => .occurences 0
    | .helpOrOther => .bool false
  { name := to_sentence_case arg.id
    call_name :=
      match arg.long with
      | some l => some ("--" ++ l)
      | none => arg.short.map (fun c => "-" ++ String.mk [c])
    desc :=
      match arg.long_help with
      | some h => some h
      | none => arg.help
    optional := !arg.required
    use_equals := arg.require_equals
    forbid_empty := false
    kind := kind
    validation_error := none
    localization := localization }

/-- Checked u8 subtraction: `a - b` on a `u8` is an arithmetic error
(panic with debug assertions, wrap-around in release builds) when
`b > a`; the error case is `none`. -/
def u8CheckedSub (a b : Nat) : Option Nat :=
  if b ≤ a then some (a - b) else none

/-- The decrement performed by the minus button of the `Occurences`
widget, src/arg_state.rs line 326: `*i = (*i - 1).max(0)` with `i : u8`.
The subtraction is the checked u8 subtraction, and `.max(0)` is applied
to its result. -/
def decrement_occurences (i : Nat) : Option Nat :=
  (u8CheckedSub i 1).map (fun r => max r 0)

/-! Concrete fixtures used by counterexamples and witnesses. -/

/-- A concrete localization: empty prefix and a plain suffix for the
required-argument message, and a fixed empty-env-key message. -/
def loc0 : Localization :=
  { error_is_required := ("", " is required")
    error_env_var_cant_be_empty := "Env variable key cannot be empty" }

/-- A required `Single` argument whose value is the empty string. -/
def reqEmpty : ArgState :=
  { name := "Name", call_name := some "--name", desc := none
    optional := false, use_equals := false, forbid_empty := false
    kind := .string ("", 0) none [] .unknown
    validation_error := none, localization := loc0 }

/-- A `Single` argument with token `--flag`, `use_equals`, value `x`. -/
def s1single : ArgState :=
  { name := "Flag", call_name := some "--flag", desc := none
    optional := true, use_equals := true, forbid_empty := false
    kind := .string ("x", 0) none [] .unknown
    validation_error := none, localization := loc0 }

/-- A `Multiple` argument with token `--m` and two entries. -/
def s1multi : ArgState :=
  { name := "M", call_name := some "--m", desc := none
    optional := true, use_equals := false, forbid_empty := false
    kind := .multipleStrings [("a", 0), ("b", 1)] [] [] .unknown
    validation_error := none, localization := loc0 }

/-- An `ArgState` carrying a pre-existing validation error. -/
def sErr : ArgState :=
  { name := "Alpha", call_name := none, desc := none
    optional := true, use_equals := false, forbid_empty := false
    kind := .bool false
    validation_error := some "old error", localization := loc0 }

/-- A `Flag` argument with no invocation token, currently false. -/
def flagNoToken : ArgState :=
  { name := "Quiet", call_name := none, desc := none
    optional := true, use_equals := false, forbid_empty := false
    kind := .bool false
    validation_error := none, localization := loc0 }

/-- A `Flag` argument with token `-q`, currently true. -/
def flagTok : ArgState :=
  { name := "Q", call_name := some "-q", desc := none
    optional := true, use_equals := false, forbid_empty := false
    kind := .bool true
    validation_error := none, localization := loc0 }

/-- A `Counter` argument with token `-v` at value 3. -/
def counterTok : ArgState :=
  { name := "V", call_name := some "-v", desc := none
    optional := true, use_equals := false, forbid_empty := false
    kind := .occurences 3
    validation_error := none, localization := loc0 }

/-- A clap argument whose action is `SetFalse`. -/
def argSetFalse : Arg :=
  { id := "verbose", long := some "verbose", short := none
    help := none, long_help := none, required := false
    require_equals := false, action := .setFalse
    default_values := [], possible_values := [], value_hint := .unknown }

/-- A clap argument whose action is `Set`. -/
def argSetAction : Arg :=
  { id := "name", long := some "name", short := none
    help := none, long_help := none, required := false
    require_equals := false, action := .set
    default_values := [], possible_values := [], value_hint := .unknown }

/-- A trivial spawn function standing in for `ChildApp::run` in
witnesses. -/
def runStub : List String → Option (List (String × String)) →
    Option StdinType → Option String → Except ExecutionError ChildApp :=
  fun _ _ _ _ => .ok { status := .running, output_buffer := "" }

/-- A lowercase ASCII letter, bundled with the facts about it that the
sentence-case loop branches on (alphanumeric, not a digit, not
uppercase, fixed by `toLower`); for every actual lowercase letter all
components hold, as the witnesses check by evaluation. -/
def lowerChar (c : Char) : Bool :=
  c.isLower && c.isAlphanum && !c.isDigit && !c.isUpper && (c.toLower == c)

/-- The two words `foo` and `bar`, as character lists. -/
def wsFooBar : List (List Char) := [['f', 'o', 'o'], ['b', 'a', 'r']]

/-- Last element of a character list, with a default. -/
def lastD : List Char → Char → Char
  | [], d => d
  | c :: cs, _ => lastD cs c

/-! Helper lemmas. -/

/-- Binding a failed `Except` computation short-circuits. -/
theorem except_error_bind {ε α β : Type} (e : ε) (f : α → Except ε β) :
    (Except.error e >>= f) = Except.error e := rfl

/-- Folding per-element appends from `init` equals `init` followed by the
flattened per-element lists. -/
theorem foldl_append_eq_flatMap {α β : Type} (g : α → List β) :
    ∀ (l : List α) (init : List β),
      l.foldl (fun a v => a ++ g v) init = init ++ l.flatMap g := by
  intro l
  induction l with
  | nil => intro init; simp
  | cons x xs ih =>
    intro init
    simp only [List.foldl_cons, List.flatMap_cons, ih, List.append_assoc]

/-- Unpacking `lowerChar`. -/
theorem lowerChar_spec {c : Char} (h : lowerChar c = true) :
    c.isAlphanum = true ∧ c.isDigit = false ∧ c.isUpper = false ∧
      c.toLower = c := by
  simp only [lowerChar, Bool.and_eq_true, Bool.not_eq_true', beq_iff_eq] at h
  exact ⟨h.1.1.1.2, h.1.1.2, h.1.2, h.2⟩

/-- Within a word: a run of lowercase letters is copied verbatim by the
sentence-case loop, updating `last_char` to the last copied letter. -/
theorem sentenceLoop_lower_run (cs : List Char)
    (h : ∀ c ∈ cs, lowerChar c = true) :
    ∀ (rest : List Char) (fw : Bool) (lc : Char) (res : List Char),
      sentenceLoop (cs ++ rest) false fw lc true res =
        sentenceLoop rest false fw (lastD cs lc) true (res ++ cs) := by
  induction cs with
  | nil => intro rest fw lc res; simp [lastD]
  | cons c cs ih =>
    intro rest fw lc res
    obtain ⟨ha, hd, hu, hl⟩ := lowerChar_spec (h c (by simp))
    have step : sentenceLoop ((c :: cs) ++ rest) false fw lc true res =
        sentenceLoop (cs ++ rest) false fw c true (res ++ [c]) := by
      simp [sentenceLoop, ha, hd, hu, hl]
    rw [step, ih (fun x hx => h x (by simp [hx]))]
    simp [lastD]

/-- Starting a non-first word (entered with `new_word` set): a space is
emitted, the word's letters follow, `last_char` is only updated past the
word's first letter. -/
theorem sentenceLoop_word_mid (c : Char) (cs : List Char)
    (hc : lowerChar c = true) (hcs : ∀ x ∈ cs, lowerChar x = true) :
    ∀ (rest : List Char) (lc : Char) (res : List Char),
      sentenceLoop ((c :: cs) ++ rest) true false lc true res =
        sentenceLoop rest false false (lastD cs lc) true
          (res ++ spaceChar :: c :: cs) := by
  intro rest lc res
  obtain ⟨ha, hd, hu, hl⟩ := lowerChar_spec hc
  have step : sentenceLoop ((c :: cs) ++ rest) true false lc true res =
      sentenceLoop (cs ++ rest) false false lc true
        (res ++ [spaceChar, c]) := by
    simp [sentenceLoop, ha, hd, append_on_new_word, hl]
  rw [step, sentenceLoop_lower_run cs hcs]
  simp

/-- The first word, from the initial loop state: its first letter is
uppercased, the rest copied. -/
theorem sentenceLoop_word_first (c : Char) (cs : List Char)
    (hc : lowerChar c = true) (hcs : ∀ x ∈ cs, lowerChar x = true) :
    ∀ (rest : List Char),
      sentenceLoop ((c :: cs) ++ rest) true true spaceChar false [] =
        sentenceLoop rest false false (lastD cs spaceChar) true
          (c.toUpper :: cs) := by
  intro rest
  obtain ⟨ha, hd, hu, hl⟩ := lowerChar_spec hc
  have step : sentenceLoop ((c :: cs) ++ rest) true true spaceChar false [] =
      sentenceLoop (cs ++ rest) false false spaceChar true [c.toUpper] := by
    simp [sentenceLoop, ha, hd, append_on_new_word]
  rw [step, sentenceLoop_lower_run cs hcs]
  simp

/-- The remaining words, each preceded by one separator: each separator
sets `new_word` and each word is emitted behind a single space. -/
theorem sentenceLoop_tail (sep : Char) (hsep : sep.isAlphanum = false)
    (ws : List (List Char)) (hne : ∀ w ∈ ws, w ≠ [])
    (hlc : ∀ w ∈ ws, ∀ c ∈ w, lowerChar c = true) :
    ∀ (lc : Char) (res : List Char),
      sentenceLoop (ws.flatMap (fun v => sep :: v)) false false lc true res =
        res ++ ws.flatMap (fun v => spaceChar :: v) := by
  induction ws with
  | nil => intro lc res; simp [sentenceLoop]
  | cons w ws ih =>
    intro lc res
    obtain ⟨c, cs, rfl⟩ : ∃ c cs, w = c :: cs := by
      cases w with
      | nil => exact absurd rfl (hne [] (by simp))
      | cons c cs => exact ⟨c, cs, rfl⟩
    have hflat : ((c :: cs) :: ws).flatMap (fun v => sep :: v) =
        sep :: ((c :: cs) ++ ws.flatMap (fun v => sep :: v)) := by
      simp [List.flatMap_cons]
    rw [hflat]
    have hsepstep : ∀ l res', sentenceLoop (sep :: l) false false lc true res' =
        sentenceLoop l true false lc true res' := by
      intro l res'
      simp [sentenceLoop, hsep]
    rw [hsepstep]
    rw [sentenceLoop_word_mid c cs (hlc (c :: cs) (by simp) c (by simp))
      (fun x hx => hlc (c :: cs) (by simp) x (by simp [hx]))]
    rw [ih (fun v hv => hne v (by simp [hv]))
      (fun v hv x hx => hlc v (by simp [hv]) x hx)]
    simp [List.flatMap_cons]

/-- `toLower` fixes every character of a list it fixes pointwise. -/
theorem map_toLower_fixed (l : List Char) (h : ∀ c ∈ l, c.toLower = c) :
    l.map Char.toLower = l := by
  induction l with
  | nil => rfl
  | cons c cs ih =>
    simp only [List.map_cons, h c (by simp),
      ih (fun x hx => h x (by simp [hx]))]

/-- A separator-joined list of nonempty, alphanumeric-final words ends in
an alphanumeric character. -/
theorem joinSep_ends_alphanum (sep : Char) (ws : List (List Char))
    (hws : ws ≠ []) (hne : ∀ w ∈ ws, w ≠ [])
    (hlc : ∀ w ∈ ws, ∀ c ∈ w, lowerChar c = true) :
    ∃ l a, joinSep sep ws = l ++ [a] ∧ a.isAlphanum = true := by
  induction ws with
  | nil => exact absurd rfl hws
  | cons w ws ih =>
    cases ws with
    | nil =>
      have hw : w ≠ [] := hne w (by simp)
      refine ⟨w.dropLast, w.getLast hw, ?_, ?_⟩
      · simp [joinSep, List.dropLast_append_getLast hw]
      · exact (lowerChar_spec (hlc w (by simp) _ (List.getLast_mem hw))).1
    | cons v vs =>
      obtain ⟨l, a, hjoin, halnum⟩ := ih (by simp)
        (fun x hx => hne x (by simp [hx]))
        (fun x hx c hc => hlc x (by simp [hx]) c hc)
      refine ⟨w ++ sep :: l, a, ?_, halnum⟩
      have hflat : (v :: vs).flatMap (fun x => sep :: x) =
          sep :: joinSep sep (v :: vs) := by
        simp [joinSep, List.flatMap_cons]
      calc joinSep sep (w :: v :: vs)
          = w ++ ((v :: vs).flatMap fun x => sep :: x) := rfl
        _ = w ++ (sep :: joinSep sep (v :: vs)) := by rw [hflat]
        _ = w ++ (sep :: (l ++ [a])) := by rw [hjoin]
        _ = (w ++ sep :: l) ++ [a] := by simp

/-- Trimming trailing non-alphanumerics does nothing to a list ending in
an alphanumeric character. -/
theorem trimEnd_of_last_alphanum (l : List Char) (a : Char)
    (ha : a.isAlphanum = true) :
    trimEndNonAlphanum (l ++ [a]) = l ++ [a] := by
  simp [trimEndNonAlphanum, ha]

/-! Claim C1. -/

/-- C1: `get_cmd_args` serializes string-valued arguments by one token
rule: a `Single` with non-empty value emits `token=value` under
`use_equals`, the two tokens `token` then `value` otherwise, and the bare
value when there is no token; a `Multiple` emits each entry in sequence
order by the same rule, and an empty sequence emits nothing and never
causes a required-field failure. -/
theorem c1_token_rule_serialization (s : ArgState) (args : List String) :
    (∀ v d p h, s.kind = .string v d p h → v.1 ≠ "" →
      s.get_cmd_args args =
        .ok (args ++ tokenRule s.call_name s.use_equals v.1)) ∧
    (∀ vs d p h, s.kind = .multipleStrings vs d p h →
      s.get_cmd_args args =
        .ok (args ++ vs.flatMap (fun v => tokenRule s.call_name s.use_equals v.1))) := by
  constructor
  · rintro ⟨value, u⟩ d p h hk hv
    have hne : value.isEmpty = false := by
      cases hemp : value.isEmpty
      · rfl
      · exact absurd ((String.isEmpty_iff value).mp hemp) hv
    cases hc : s.call_name with
    | none => simp [ArgState.get_cmd_args, hk, hne, hc, tokenRule]
    | some t =>
      cases hu : s.use_equals <;>
        simp [ArgState.get_cmd_args, hk, hne, hc, hu, tokenRule]
  · intro vs d p h hk
    cases hvs : vs.isEmpty with
    | true =>
      have : vs = [] := List.isEmpty_iff.mp hvs
      subst this
      simp [ArgState.get_cmd_args, hk]
    | false =>
      cases hc : s.call_name with
      | none =>
        simp [ArgState.get_cmd_args, hk, hvs, hc, tokenRule,
          foldl_append_eq_flatMap]
      | some t =>
        cases hu : s.use_equals <;>
          simp [ArgState.get_cmd_args, hk, hvs, hc, hu, tokenRule,
            foldl_append_eq_flatMap]

/-- C1 witness: `use_equals` single emits one `--flag=x` token; a
two-entry multiple without equals emits token-value pairs in order. -/
theorem c1_witness :
    s1single.get_cmd_args [] = .ok ["--flag=x"] ∧
    s1multi.get_cmd_args [] = .ok ["--m", "a", "--m", "b"] := by
  constructor
  · have h := (c1_token_rule_serialization s1single []).1 ("x", 0) none []
      .unknown rfl (by decide)
    simpa using h
  · have h := (c1_token_rule_serialization s1multi []).2 [("a", 0), ("b", 1)]
      [] [] .unknown rfl
    simpa [tokenRule] using h

/-! Claim C2. -/

/-- C2: a required `Single` with empty value makes `get_cmd_args` fail
with the required-argument message naming that argument, and the
orchestrator's `try_start_execution` returns that error (as the lifted
`guiError`) for every possible spawn function, i.e. without spawning a
child process. -/
theorem c2_missing_required (s : ArgState) (v : String × Nat)
    (d : Option String) (p : List String) (h : ValueHint)
    (hk : s.kind = .string v d p h) (hv : v.1 = "")
    (ho : s.optional = false) (args : List String) :
    s.get_cmd_args args = .error (s.localization.error_is_required.1 ++
      s.name ++ s.localization.error_is_required.2) ∧
    ∀ (rest : List ArgState) (subR : Bool) (sub : Option (String × AppState))
      (mc : List String → Except ExecutionError Unit)
      (env : Option (String × List (String × String)))
      (stdin : Option (String × StdinType)) (wd : Option (String × String))
      (loc : Localization)
      (run : List String → Option (List (String × String)) →
        Option StdinType → Option String → Except ExecutionError ChildApp),
      try_start_execution (.node (s :: rest) subR sub) mc env stdin wd loc run =
        .error (.guiError (s.localization.error_is_required.1 ++ s.name ++
          s.localization.error_is_required.2)) := by
  obtain ⟨value, u⟩ := v
  have hval : value = "" := hv
  subst hval
  have hfail : ∀ a, s.get_cmd_args a =
      .error (s.localization.error_is_required.1 ++ s.name ++
        s.localization.error_is_required.2) := by
    intro a
    have he : "".isEmpty = true := rfl
    simp [ArgState.get_cmd_args, hk, ho, he]
  refine ⟨hfail args, ?_⟩
  intro rest subR sub mc env stdin wd loc run
  have hstate : AppState.get_cmd_args (.node (s :: rest) subR sub) [] =
      .error (s.localization.error_is_required.1 ++ s.name ++
        s.localization.error_is_required.2) := by
    simp [AppState.get_cmd_args, List.foldlM, hfail, except_error_bind]
  simp [try_start_execution, hstate]

/-- C2 witness: the concrete required empty field fails with the message
naming it and the orchestrator short-circuits with that error. -/
theorem c2_witness :
    reqEmpty.get_cmd_args [] = .error "Name is required" ∧
    try_start_execution (.node [reqEmpty] false none) (fun _ => .ok ())
      none none none loc0 runStub = .error (.guiError "Name is required") := by
  have h := c2_missing_required reqEmpty ("", 0) none [] .unknown rfl rfl rfl []
  exact ⟨h.1, h.2 [] false none (fun _ => .ok ()) none none none loc0 runStub⟩

/-! Claim C3. -/

/-- C3: the `Counter` decrement `(*i - 1).max(0)` on `i : u8` is an
arithmetic error at 0 (modelled as `none`): the value does not stay at 0,
contradicting the floor-at-0 claim, while for positive values it
decrements by one. The `.max(0)` in the source is a no-op on an unsigned
type. -/
theorem c3_counter_decrement_at_zero :
    decrement_occurences 0 = none ∧
    decrement_occurences 1 = some 0 ∧
    decrement_occurences 3 = some 2 := by decide

/-! Claim C4. -/

/-- C4 counterexample: a `SetFalse` boolean-toggle argument is
initialized to `true`, not to the empty representation `false`. -/
theorem c4_counterexample :
    (ArgState.new argSetFalse loc0).kind = ArgKind.bool true ∧
    (ArgState.new argSetFalse loc0).kind ≠ ArgKind.bool false := by decide

/-- C4 amended: `ArgState::new` initializes the value to the empty
representation for every action except `SetFalse` — empty string for
`Set`, empty sequence for `Append`, `false` for `SetTrue` (and for the
catch-all actions), 0 for `Count` — but `true` for `SetFalse`; the
validation-error slot starts clear. -/
theorem c4_amended_initialization (arg : Arg) (loc : Localization) :
    (arg.action = .set → (ArgState.new arg loc).kind =
      .string ("", freshUuid) arg.default_values.head? arg.possible_values
        arg.value_hint) ∧
    (arg.action = .append → (ArgState.new arg loc).kind =
      .multipleStrings [] arg.default_values arg.possible_values
        arg.value_hint) ∧
    (arg.action = .setTrue → (ArgState.new arg loc).kind = .bool false) ∧
    (arg.action = .setFalse → (ArgState.new arg loc).kind = .bool true) ∧
    (arg.action = .count → (ArgState.new arg loc).kind = .occurences 0) ∧
    (arg.action = .helpOrOther → (ArgState.new arg loc).kind = .bool false) ∧
    (ArgState.new arg loc).validation_error = none := by
  refine ⟨?_, ?_, ?_, ?_, ?_, ?_, rfl⟩ <;>
    intro h <;> simp [ArgState.new, h]

/-- C4 witness: a `Set` argument starts with the empty string value. -/
theorem c4_witness :
    (ArgState.new argSetAction loc0).kind =
      ArgKind.string ("", freshUuid) none [] .unknown :=
  (c4_amended_initialization argSetAction loc0).1 rfl

/-! Claim C5. -/

/-- C5 counterexample: applying a validation error for a non-matching
name does not leave the argument's validation error unchanged — it
clears the pre-existing error. -/
theorem c5_counterexample :
    (sErr.update_validation_error "Beta" "boom").validation_error = none ∧
    sErr.validation_error = some "old error" ∧
    (sErr.update_validation_error "Beta" "boom").validation_error ≠
      sErr.validation_error := by decide

/-- C5 amended: `update_validation_error` overwrites the slot
unconditionally — the message lands on a matching name and every
non-matching argument's error becomes `none` (cleared, not preserved; in
particular an unmatched error is dropped) — and no other field of the
state is touched. -/
theorem c5_amended_update_validation_error (s : ArgState)
    (name message : String) :
    ((s.update_validation_error name message).validation_error =
      if s.name = name then some message else none) ∧
    (s.update_validation_error name message).name = s.name ∧
    (s.update_validation_error name message).call_name = s.call_name ∧
    (s.update_validation_error name message).desc = s.desc ∧
    (s.update_validation_error name message).optional = s.optional ∧
    (s.update_validation_error name message).use_equals = s.use_equals ∧
    (s.update_validation_error name message).forbid_empty = s.forbid_empty ∧
    (s.update_validation_error name message).kind = s.kind ∧
    (s.update_validation_error name message).localization = s.localization :=
  ⟨rfl, rfl, rfl, rfl, rfl, rfl, rfl, rfl, rfl⟩

/-! Claim C6. -/

/-- C6 counterexample: a `Flag` whose invocation token is absent does not
make `get_cmd_args` fail when the flag is false — it succeeds and emits
nothing, refuting the unconditional "if the token is absent, fail". -/
theorem c6_counterexample :
    flagNoToken.call_name = none ∧
    flagNoToken.get_cmd_args [] = .ok [] := ⟨rfl, rfl⟩

/-- C6 amended: a `Flag` emits the token exactly once iff true and a
`Counter` at `n` emits it exactly `n` consecutive times; with the token
absent, `get_cmd_args` fails with the fixed internal message
`Internal error.` exactly when an emission is due (flag true, counter
positive) and succeeds emitting nothing otherwise; the lifted internal
error (`guiError`) is a different `ExecutionError` variant from the
user-facing `validationError`. -/
theorem c6_amended_flag_counter (s : ArgState) (args : List String) :
    (∀ t, s.call_name = some t →
      (s.kind = .bool true → s.get_cmd_args args = .ok (args ++ [t])) ∧
      (∀ n, s.kind = .occurences n →
        s.get_cmd_args args = .ok (args ++ List.replicate n t))) ∧
    (s.kind = .bool false → s.get_cmd_args args = .ok args) ∧
    (s.call_name = none → s.kind = .bool true →
      s.get_cmd_args args = .error "Internal error.") ∧
    (s.kind = .occurences 0 → s.get_cmd_args args = .ok args) ∧
    (∀ n, s.call_name = none → s.kind = .occurences n → 0 < n →
      s.get_cmd_args args = .error "Internal error.") ∧
    (∀ name message, ExecutionError.guiError "Internal error." ≠
      ExecutionError.validationError name message) := by
  refine ⟨?_, ?_, ?_, ?_, ?_, ?_⟩
  · intro t hc
    constructor
    · intro hk; simp [ArgState.get_cmd_args, hk, hc]
    · intro n hk; simp [ArgState.get_cmd_args, hk, hc]
  · intro hk; simp [ArgState.get_cmd_args, hk]
  · intro hc hk; simp [ArgState.get_cmd_args, hk, hc]
  · intro hk
    cases hc : s.call_name <;> simp [ArgState.get_cmd_args, hk, hc]
  · intro n hc hk hn
    simp [ArgState.get_cmd_args, hk, hc, Nat.pos_iff_ne_zero.mp hn]
  · intro name message hcontra
    exact ExecutionError.noConfusion hcontra

/-- C6 witness: a true flag with token `-q` emits it once; a counter at 3
with token `-v` emits it three times. -/
theorem c6_witness :
    flagTok.get_cmd_args [] = .ok ["-q"] ∧
    counterTok.get_cmd_args [] = .ok ["-v", "-v", "-v"] := by
  constructor
  · exact ((c6_amended_flag_counter flagTok []).1 "-q" rfl).1 rfl
  · have h := ((c6_amended_flag_counter counterTok []).1 "-v" rfl).2 3 rfl
    simpa using h

/-! Claim C7. -/

/-- C7: with an empty key among the env overrides, `try_start_execution`
returns an error whose value does not depend on the spawn function at all
(no process is spawned, the status can only remain `NotStarted`), and —
when assembly and the clap re-validation succeed — that error is the
fixed localizable `error_env_var_cant_be_empty` message, tied to no
argument id. -/
theorem c7_empty_env_key (st : AppState)
    (mc : List String → Except ExecutionError Unit) (d : String)
    (env : List (String × String)) (stdin : Option (String × StdinType))
    (wd : Option (String × String)) (loc : Localization)
    (h : (env.find? (fun kv => kv.1.isEmpty)).isSome = true) :
    (∀ run, ∃ e, try_start_execution st mc (some (d, env)) stdin wd loc run =
      .error e) ∧
    (∀ run run', try_start_execution st mc (some (d, env)) stdin wd loc run =
      try_start_execution st mc (some (d, env)) stdin wd loc run') ∧
    (∀ args run, st.get_cmd_args [] = .ok args → mc args = .ok () →
      try_start_execution st mc (some (d, env)) stdin wd loc run =
        .error (.guiError loc.error_env_var_cant_be_empty)) := by
  have key : ∀ run, try_start_execution st mc (some (d, env)) stdin wd loc run =
      match st.get_cmd_args [] with
      | .error e => .error (.guiError e)
      | .ok args =>
        match mc args with
        | .error e => .error e
        | .ok _ => .error (.guiError loc.error_env_var_cant_be_empty) := by
    intro run
    unfold try_start_execution
    cases hg : st.get_cmd_args [] with
    | error e => rfl
    | ok args =>
      cases hm : mc args with
      | error e => simp [hm]
      | ok u => simp [hm, Option.bind, h]
  refine ⟨?_, ?_, ?_⟩
  · intro run
    rw [key run]
    cases hg : st.get_cmd_args [] with
    | error e => exact ⟨.guiError e, rfl⟩
    | ok args =>
      cases hm : mc args with
      | error e => exact ⟨e, by simp [hm]⟩
      | ok u => exact ⟨.guiError loc.error_env_var_cant_be_empty, by simp [hm]⟩
  · intro run run'
    rw [key run, key run']
  · intro args run hg hm
    rw [key run]
    simp [hg, hm]

/-- C7 witness: an env list with an empty key is rejected with the fixed
message before the stub spawn function is ever consulted. -/
theorem c7_witness :
    ((([("", "v")] : List (String × String)).find?
      (fun kv => kv.1.isEmpty)).isSome = true) ∧
    try_start_execution (.node [] false none) (fun _ => .ok ())
      (some ("", [("", "v")])) none none loc0 runStub =
      .error (.guiError "Env variable key cannot be empty") := by
  refine ⟨by decide, ?_⟩
  exact (c7_empty_env_key (.node [] false none) (fun _ => .ok ()) ""
    [("", "v")] none none loc0 (by decide)).2.2 [] runStub rfl rfl

/-! Claim C9. -/

/-- C9: `kill()` on a child-process handle is idempotent — on a running
handle it transitions the status to `Killed`, on an already-exited or
already-killed handle it is a no-op, and killing twice equals killing
once. -/
theorem c9_kill_idempotent (c : ChildApp) :
    (c.status = .running → (c.kill).status = .killed) ∧
    (∀ code, c.status = .exited code → c.kill = c) ∧
    (c.status = .killed → c.kill = c) ∧
    c.kill.kill = c.kill := by
  obtain ⟨st, buf⟩ := c
  cases st <;> simp [ChildApp.kill]

/-- C9 witness: a running handle transitions to `Killed`; an exited
handle is untouched. -/
theorem c9_witness :
    (ChildApp.mk .running "out").kill.status = .killed ∧
    (ChildApp.mk (.exited 0) "out").kill = ChildApp.mk (.exited 0) "out" :=
  ⟨(c9_kill_idempotent (ChildApp.mk .running "out")).1 rfl,
   (c9_kill_idempotent (ChildApp.mk (.exited 0) "out")).2.1 0 rfl⟩

/-! Claim C10. -/

/-- C10: `get_cmd_args` is append-only — for every initial token list the
result (success or failure alike) is the result on the empty list with
`args` prepended unchanged, so `args` is always an unmodified prefix of
any successful result and new tokens only go at the end; the embedding is
a pure function of the state, which `&self` in the source likewise never
mutates. -/
theorem c10_append_only (s : ArgState) (args : List String) :
    s.get_cmd_args args = (s.get_cmd_args []).map (fun t => args ++ t) := by
  obtain ⟨name, call_name, desc, optional, use_equals, forbid_empty,
    kind, verr, loc⟩ := s
  cases kind with
  | string v d p h =>
    obtain ⟨value, u⟩ := v
    cases hv : value.isEmpty <;> cases call_name <;>
      cases use_equals <;> cases optional <;>
        simp [ArgState.get_cmd_args, hv, Except.map]
  | multipleStrings vs d p h =>
    cases hvs : vs.isEmpty <;> cases call_name <;> cases use_equals <;>
      simp [ArgState.get_cmd_args, hvs, Except.map, foldl_append_eq_flatMap]
  | occurences i =>
    cases call_name with
    | none =>
      cases hi : i == 0 <;>
        simp_all [ArgState.get_cmd_args, Except.map]
    | some t => simp [ArgState.get_cmd_args, Except.map]
  | bool b =>
    cases b <;> cases call_name <;> simp [ArgState.get_cmd_args, Except.map]

/-! Claim C8. -/

/-- C8 counterexample: on the id `aB` the source transform yields `Ab` —
the lowercase-to-uppercase boundary immediately after the word's first
letter is missed (the loop's `last_char` is not updated on a word-start
letter) — while the claimed segmentation-plus-sentence-casing yields
`A b`. -/
theorem c8_counterexample :
    to_sentence_case "aB" = "Ab" ∧
    sentenceCaseClaim "aB" = "A b" ∧
    to_sentence_case "aB" ≠ sentenceCaseClaim "aB" := by decide

/-- C8 amended: restricted to ids of nonempty lowercase-ASCII words
joined by single non-alphanumeric ASCII separators, the display name is
the words joined by single spaces with exactly the first letter
capitalized (the claim's transform). Outside this domain the code
diverges from the claim: a lowercase-to-uppercase boundary directly
after a word's first letter is not split (`aB` gives `Ab`), and a digit
is glued to the current word while forcing a split after it
(`foo2bar` gives `Foo2 bar`). -/
theorem c8_amended_snake_ids (sep : Char) (ws : List (List Char))
    (hsepA : sep.toNat < 128) (hsep : sep.isAlphanum = false)
    (hne : ∀ w ∈ ws, w ≠ [])
    (hlc : ∀ w ∈ ws, ∀ c ∈ w, lowerChar c = true) :
    to_sentence_case (String.mk (joinSep sep ws)) =
      String.mk (capitalizeSentence (joinSep spaceChar ws)) := by
  cases ws with
  | nil => rfl
  | cons w ws =>
    obtain ⟨c, cs, rfl⟩ : ∃ c cs, w = c :: cs := by
      cases w with
      | nil => exact absurd rfl (hne [] (by simp))
      | cons c cs => exact ⟨c, cs, rfl⟩
    obtain ⟨l, a, heq, ha⟩ := joinSep_ends_alphanum sep ((c :: cs) :: ws)
      (by simp) hne hlc
    have htrim : trimEndNonAlphanum (joinSep sep ((c :: cs) :: ws)) =
        joinSep sep ((c :: cs) :: ws) := by
      rw [heq]
      exact trimEnd_of_last_alphanum l a ha
    have hloop : sentenceLoop (joinSep sep ((c :: cs) :: ws)) true true
        spaceChar false [] =
        c.toUpper :: (cs ++ ws.flatMap (fun v => spaceChar :: v)) := by
      have h1 : joinSep sep ((c :: cs) :: ws) =
          (c :: cs) ++ ws.flatMap (fun v => sep :: v) := rfl
      rw [h1]
      rw [sentenceLoop_word_first c cs (hlc (c :: cs) (by simp) c (by simp))
        (fun x hx => hlc (c :: cs) (by simp) x (by simp [hx]))]
      rw [sentenceLoop_tail sep hsep ws (fun v hv => hne v (by simp [hv]))
        (fun v hv x hx => hlc v (by simp [hv]) x hx)]
      simp
    have hcap : capitalizeSentence (joinSep spaceChar ((c :: cs) :: ws)) =
        c.toUpper :: (cs ++ ws.flatMap (fun v => spaceChar :: v)) := by
      have h2 : joinSep spaceChar ((c :: cs) :: ws) =
          c :: (cs ++ ws.flatMap (fun v => spaceChar :: v)) := rfl
      rw [h2]
      simp only [capitalizeSentence]
      congr 1
      apply map_toLower_fixed
      intro x hx
      rcases List.mem_append.mp hx with hxc | hxf
      · exact (lowerChar_spec (hlc (c :: cs) (by simp) x
          (by simp [hxc]))).2.2.2
      · obtain ⟨w', hw', hxw⟩ := List.mem_flatMap.mp hxf
        rcases List.mem_cons.mp hxw with hxs | hxw'
        · rw [hxs]; decide
        · exact (lowerChar_spec (hlc w' (by simp [hw']) x hxw')).2.2.2
    simp only [to_sentence_case]
    rw [htrim, hloop, hcap]

/-- C8 witness: on `foo_bar` the amended statement applies and gives the
space-joined, first-letter-capitalized display name `Foo bar`. -/
theorem c8_witness :
    (('_'.toNat < 128) ∧ ('_'.isAlphanum = false) ∧
      (∀ w ∈ wsFooBar, w ≠ []) ∧
      (∀ w ∈ wsFooBar, ∀ c ∈ w, lowerChar c = true)) ∧
    String.mk (joinSep '_' wsFooBar) = "foo_bar" ∧
    to_sentence_case (String.mk (joinSep '_' wsFooBar)) =
      String.mk (capitalizeSentence (joinSep spaceChar wsFooBar)) := by
  refine ⟨⟨by decide, by decide, by decide, by decide⟩, by decide, ?_⟩
  exact c8_amended_snake_ids '_' wsFooBar (by decide) (by decide)
    (by decide) (by decide)

end Klask
